import Mathlib

/-!
Verification of the c8y-session-1password session provider.

This file shallowly embeds the parts of the program that the checked
claims are about:

* the Chrome native-messaging framed protocol handler
  (cmd/root.go: runNativeMessaging, writeNativeMessage, applyRevealFlag),
* the 1Password client's URL collection, session fan-out and vault listing
  (pkg/onepassword/client.go: isURLField, collectURLs, extractFields,
  buildSessionName, buildSessionURI, mapToSessions, ParseOPURI,
  parseVaultNamesFromString, List),
* the core session synthesis engine
  (pkg/core/session.go: BuildSessionName, BuildSessionURI, CreateSession,
  FilterMatchingTags, MapToSessions, NormalizeDisplayURL, extractHostname).

Go strings are modelled as lists of characters, Go byte slices as lists of
naturals, machine integers as naturals (or integers) with explicit
truncation where the code can overflow.  External effects (the `op` CLI,
JSON (un)marshalling of request/response envelopes, stdin/stdout) are
abstracted as function parameters; everything the claims quantify over is
embedded from the source.

Because `collectURLs` sorts with Go's `sort.Slice`, the file also embeds
the sorting algorithm `sort.Slice` uses (Go 1.21, sort/zsortfunc.go:
pdqsort with its insertion-sort, heap-sort, pivot selection and
partitioning subroutines), so that claims about the ordering produced by
`collectURLs` are settled against the algorithm the program actually runs.
-/

namespace C8y

/-- Go strings, modelled as lists of characters. -/
abbrev Str := List Char

/-- Model of strings.ToLower (ASCII case mapping). -/
def strToLower (s : Str) : Str := s.map Char.toLower

/-- Model of strings.ToUpper (ASCII case mapping). -/
def strToUpper (s : Str) : Str := s.map Char.toUpper

/-- Model of strings.EqualFold: case-insensitive equality. -/
def strEqFold (s t : Str) : Bool := strToLower s == strToLower t

/-- Whitespace test used by strings.TrimSpace. -/
def isSpaceChar (c : Char) : Bool :=
  c == ' ' || c == '\t' || c == '\n' || c == '\r'

/-- Model of strings.TrimSpace. -/
def trimSpace (s : Str) : Str :=
  ((s.dropWhile isSpaceChar).reverse.dropWhile isSpaceChar).reverse

/-- Model of strings.HasPrefix. -/
def hasPfx (p s : Str) : Bool := p.isPrefixOf s

/-- Model of strings.TrimPrefix: drop p when it is a leading pattern of s. -/
def trimPfx (p s : Str) : Str := if hasPfx p s then s.drop p.length else s

/-- Model of strings.TrimSuffix. -/
def trimSfx (p s : Str) : Str :=
  if hasPfx p.reverse s.reverse then (s.reverse.drop p.length).reverse else s

/-- Model of strings.Split(s, string(c)) for a one-character separator. -/
def splitChar (c : Char) : Str → List Str
  | [] => [[]]
  | x :: xs =>
    match splitChar c xs with
    | [] => [[x]]
    | h :: t => if x = c then [] :: h :: t else (x :: h) :: t

/-- Split at the first occurrence of character c, as strings.SplitN(s, c, 2):
returns none when c does not occur. -/
def splitFirst (c : Char) : Str → Option (Str × Str)
  | [] => none
  | x :: xs =>
    if x = c then some ([], xs)
    else (splitFirst c xs).map (fun p => (x :: p.1, p.2))

/-- First index at which sep occurs in s (none when sep does not occur). -/
def findSeq (sep : Str) : Str → Option Nat
  | [] => if sep = [] then some 0 else none
  | x :: xs =>
    if sep.isPrefixOf (x :: xs) then some 0
    else (findSeq sep xs).map (· + 1)

lemma findSeq_lt {sep : Str} (hsep : sep ≠ []) :
    ∀ {s : Str} {i : Nat}, findSeq sep s = some i → i < s.length := by
  intro s
  induction s with
  | nil => intro i h; simp [findSeq, hsep] at h
  | cons x xs ih =>
    intro i h
    simp only [findSeq] at h
    by_cases hp : sep.isPrefixOf (x :: xs)
    · simp only [hp, if_true] at h
      injection h with h
      simp [← h]
    · simp only [hp, if_false] at h
      cases hfs : findSeq sep xs with
      | none => rw [hfs] at h; simp at h
      | some j =>
        rw [hfs] at h
        simp only [Option.map_some'] at h
        injection h with h
        have := ih hfs
        simp only [List.length_cons]
        omega

/-- Recursion of splitSeq, on a fuel counter that the wrapper sizes to the
string length so it cannot run out (each cut drops at least one
character). -/
def splitSeqAux (sep : Str) : Nat → Str → List Str
  | 0, s => [s]
  | fuel + 1, s =>
    match findSeq sep s with
    | none => [s]
    | some i => s.take i :: splitSeqAux sep fuel (s.drop (i + sep.length))

/-- Model of strings.Split(s, sep).  An empty separator splits into
single-character strings; otherwise the string is cut at each leftmost
non-overlapping occurrence of sep. -/
def splitSeq (sep : Str) (s : Str) : List Str :=
  if sep = [] then s.map (fun c => [c])
  else splitSeqAux sep (s.length + 1) s

/-- Model of strings.Contains(s, string(c)) for a single character. -/
def containsChar (c : Char) (s : Str) : Bool := s.contains c

/-- Model of fmt %d for a natural number. -/
def natToStr (n : Nat) : Str := (Nat.repr n).data

end C8y

namespace C8y

/-! ## Native-messaging framing (cmd/root.go)

`writeNativeMessage` writes a 4-byte little-endian length followed by the
body.  The receive side of `runNativeMessaging` reads 4 bytes, decodes the
length, rejects lengths of 0 or above 1 MiB, then reads exactly that many
body bytes.  Bytes are naturals; uint32 truncation is explicit. -/

/-- Little-endian 4-byte encoding of a length, as binary.LittleEndian.PutUint32
applied to uint32(n) (the cast truncates modulo 2^32, which the byte
extraction below performs implicitly). -/
def toLE4 (n : Nat) : List Nat :=
  [n % 256, n / 256 % 256, n / 65536 % 256, n / 16777216 % 256]

/-- Little-endian decoding of the first 4 bytes, as binary.LittleEndian.Uint32. -/
def decodeLE4 (l : List Nat) : Nat :=
  l.getD 0 0 + 256 * l.getD 1 0 + 65536 * l.getD 2 0 + 16777216 * l.getD 3 0

/-- Model of writeNativeMessage: 4-byte little-endian length prefix followed
by the body bytes. -/
def encodeFrame (body : List Nat) : List Nat := toLE4 body.length ++ body

/-- Maximum message length accepted by the receive loop (1 MiB). -/
def maxMessageLength : Nat := 1024 * 1024

/-- Result of reading one frame from the stream (steps 1-3 of the
runNativeMessaging loop body). -/
inductive ReadResult where
  | eof : ReadResult
  | fatal : ReadResult
  | frame (body rest : List Nat) : ReadResult
deriving DecidableEq

/-- Steps 1-3 of the runNativeMessaging receive loop: read the 4-byte length
prefix (clean EOF at offset 0 ends the loop normally; a partial header is
fatal), decode it, reject 0 or above 1 MiB as fatal before reading the
body, then read exactly that many body bytes (a short body read is fatal). -/
def readFrame (input : List Nat) : ReadResult :=
  if input = [] then .eof
  else if input.length < 4 then .fatal
  else if decodeLE4 (input.take 4) = 0 ∨ decodeLE4 (input.take 4) > maxMessageLength then
    .fatal
  else if (input.drop 4).length < decodeLE4 (input.take 4) then .fatal
  else
    .frame ((input.drop 4).take (decodeLE4 (input.take 4)))
      ((input.drop 4).drop (decodeLE4 (input.take 4)))

/-- How the receive loop ended: clean EOF, or a framing-fatal error. -/
inductive ExitStatus where
  | eof : ExitStatus
  | fatal : ExitStatus
deriving DecidableEq

lemma readFrame_frame_length {input body rest : List Nat}
    (h : readFrame input = .frame body rest) : rest.length < input.length := by
  unfold readFrame at h
  split at h
  · exact absurd h (by simp)
  · split at h
    · exact absurd h (by simp)
    · split at h
      · exact absurd h (by simp)
      · split at h
        · exact absurd h (by simp)
        · rename_i h1 h2 h3 h4
          injection h with hb hr
          subst hr
          simp only [List.length_drop]
          push_neg at h2 h3
          omega

/-- Model of the runNativeMessaging receive loop (cmd/root.go).  The JSON
unmarshalling of the request envelope, the request processing (dispatch to
test_auth or session query, which itself frames and returns the reply
body), and the marshalling of the error envelope written on failure are
external collaborators, abstracted as parameters:

* `um b` models json.Unmarshal of body b into a NativeMessagingRequest,
  returning the request or the parse-error message;
* `pr r` models processNativeMessagingRequest: on success it yields the
  bytes of the marshalled reply body, on failure an error message;
* `me e` models json.Marshal of the error envelope built from message e,
  a JSON object with fields type = "error" and error = e.

The loop returns the list of frames written to stdout and how it ended.
A parse failure or processing failure sends one framed error reply and
continues; a successfully processed request sends its framed reply and
continues; framing problems terminate the loop. -/
def runLoop (R : Type) (um : List Nat → Except Str R)
    (pr : R → Except Str (List Nat)) (me : Str → List Nat)
    (input : List Nat) : List (List Nat) × ExitStatus :=
  match h : readFrame input with
  | .eof => ([], .eof)
  | .fatal => ([], .fatal)
  | .frame body rest =>
    match um body with
    | .error e =>
      let r := runLoop R um pr me rest
      (encodeFrame (me e) :: r.1, r.2)
    | .ok req =>
      match pr req with
      | .error e =>
        let r := runLoop R um pr me rest
        (encodeFrame (me e) :: r.1, r.2)
      | .ok reply =>
        let r := runLoop R um pr me rest
        (encodeFrame reply :: r.1, r.2)
termination_by input.length
decreasing_by
  all_goals exact readFrame_frame_length h

lemma decodeLE4_toLE4 {n : Nat} (hn : n < 4294967296) :
    decodeLE4 (toLE4 n) = n := by
  simp only [decodeLE4, toLE4, List.getD_cons_zero, List.getD_cons_succ]
  omega

lemma toLE4_length (n : Nat) : (toLE4 n).length = 4 := rfl

lemma take4_toLE4_append (n : Nat) (l : List Nat) :
    ((toLE4 n ++ l).take 4) = toLE4 n := by
  rw [show (4 : Nat) = (toLE4 n).length from rfl, List.take_left]

lemma drop4_toLE4_append (n : Nat) (l : List Nat) :
    ((toLE4 n ++ l).drop 4) = l := by
  rw [show (4 : Nat) = (toLE4 n).length from rfl, List.drop_left]

lemma readFrame_encodeFrame (b rest : List Nat) (h0 : 0 < b.length)
    (h1 : b.length ≤ maxMessageLength) :
    readFrame (encodeFrame b ++ rest) = .frame b rest := by
  have hmax : b.length < 4294967296 := by
    have : maxMessageLength = 1048576 := rfl
    omega
  have hdec : decodeLE4 ((encodeFrame b ++ rest).take 4) = b.length := by
    rw [encodeFrame, List.append_assoc, take4_toLE4_append, decodeLE4_toLE4 hmax]
  have hdrop : (encodeFrame b ++ rest).drop 4 = b ++ rest := by
    rw [encodeFrame, List.append_assoc, drop4_toLE4_append]
  have hlen : (encodeFrame b ++ rest).length = 4 + b.length + rest.length := by
    simp [encodeFrame, toLE4]
    omega
  rw [readFrame]
  rw [if_neg (by
    intro hc
    have h9 := congrArg List.length hc
    rw [hlen] at h9
    simp only [List.length_nil] at h9
    omega)]
  rw [if_neg (by omega)]
  rw [hdec, hdrop]
  rw [if_neg (by omega)]
  rw [if_neg (by simp)]
  rw [List.take_left' rfl, List.drop_left' rfl]

/-- Rejection happens on the decoded length alone: a header announcing a
length of zero or above 1 MiB is fatal no matter what (and how many) bytes
follow it. -/
lemma readFrame_reject (n : Nat) (rest : List Nat)
    (hn : n < 4294967296) (hbad : n = 0 ∨ n > maxMessageLength) :
    readFrame (toLE4 n ++ rest) = .fatal := by
  have hdec : decodeLE4 ((toLE4 n ++ rest).take 4) = n := by
    rw [take4_toLE4_append, decodeLE4_toLE4 hn]
  rw [readFrame]
  rw [if_neg (by intro hc; have := congrArg List.length hc; simp [toLE4] at this)]
  rw [if_neg (by simp [toLE4])]
  rw [hdec, if_pos hbad]

/-- C5.  Framing round-trip and bound: encoding a body of length L yields
exactly 4 + L bytes (a 4-byte little-endian length prefix followed by the
body); the receive side decodes those bytes back to the identical body
(for any accepted length, i.e. 0 < L ≤ 1 MiB) with the following stream
preserved; and a decoded length of zero or above 1 MiB — in particular
exactly 1 MiB + 1 — is rejected as fatal before any body bytes are read
(the rejection holds for every suffix, even one shorter than the
announced length). -/
theorem framing_roundtrip_and_bound :
    (∀ b : List Nat, (encodeFrame b).length = 4 + b.length)
    ∧ (∀ b rest : List Nat, 0 < b.length → b.length ≤ maxMessageLength →
        readFrame (encodeFrame b ++ rest) = .frame b rest)
    ∧ (∀ rest : List Nat, readFrame (toLE4 (maxMessageLength + 1) ++ rest) = .fatal)
    ∧ (∀ rest : List Nat, readFrame (toLE4 0 ++ rest) = .fatal) := by
  refine ⟨fun b => ?_, readFrame_encodeFrame, fun rest => ?_, fun rest => ?_⟩
  · simp [encodeFrame, toLE4]; omega
  · exact readFrame_reject _ _ (by norm_num [maxMessageLength]) (Or.inr (by omega))
  · exact readFrame_reject _ _ (by norm_num) (Or.inl rfl)

/-- C5 witness: the round-trip conjunct applied at the concrete one-byte
body [42] with empty following stream. -/
theorem framing_roundtrip_and_bound_witness :
    0 < [42].length ∧ [42].length ≤ maxMessageLength
    ∧ readFrame (encodeFrame [42] ++ []) = .frame [42] [] :=
  ⟨by decide, by decide,
    framing_roundtrip_and_bound.2.1 [42] [] (by decide) (by decide)⟩

lemma runLoop_nil (R : Type) (um : List Nat → Except Str R)
    (pr : R → Except Str (List Nat)) (me : Str → List Nat) :
    runLoop R um pr me [] = ([], .eof) := by
  rw [runLoop]
  rfl

lemma runLoop_frame_error (R : Type) (um : List Nat → Except Str R)
    (pr : R → Except Str (List Nat)) (me : Str → List Nat)
    {input body rest : List Nat} {e : Str}
    (h : readFrame input = .frame body rest) (hum : um body = .error e) :
    runLoop R um pr me input =
      (encodeFrame (me e) :: (runLoop R um pr me rest).1,
        (runLoop R um pr me rest).2) := by
  rw [runLoop]
  split
  · rename_i h2; rw [h] at h2; exact absurd h2 (by simp)
  · rename_i h2; rw [h] at h2; exact absurd h2 (by simp)
  · rename_i body2 rest2 h2
    rw [h] at h2
    injection h2 with hb hr
    subst hb; subst hr
    rw [hum]

lemma runLoop_frame_ok (R : Type) (um : List Nat → Except Str R)
    (pr : R → Except Str (List Nat)) (me : Str → List Nat)
    {input body rest reply : List Nat} {req : R}
    (h : readFrame input = .frame body rest) (hum : um body = .ok req)
    (hpr : pr req = .ok reply) :
    runLoop R um pr me input =
      (encodeFrame reply :: (runLoop R um pr me rest).1,
        (runLoop R um pr me rest).2) := by
  rw [runLoop]
  split
  · rename_i h2; rw [h] at h2; exact absurd h2 (by simp)
  · rename_i h2; rw [h] at h2; exact absurd h2 (by simp)
  · rename_i body2 rest2 h2
    rw [h] at h2
    injection h2 with hb hr
    subst hb; subst hr
    simp only [hum]
    simp only [hpr]

/-- C1.  A frame whose body fails to parse as JSON does not terminate the
receive loop: the handler writes one framed error reply (the marshalled
error envelope) and then behaves on the remaining stream exactly as it
would on a fresh stream — in particular a following well-formed frame is
still read, processed, and answered, and the loop then ends with a clean
EOF rather than a disconnect.  The statement is universal in the
unmarshaller, processor and error marshaller the loop is parameterized
by. -/
theorem malformed_frame_resilience (R : Type) (um : List Nat → Except Str R)
    (pr : R → Except Str (List Nat)) (me : Str → List Nat)
    (bad : List Nat) (e : Str) (hum : um bad = .error e)
    (h0 : 0 < bad.length) (h1 : bad.length ≤ maxMessageLength) :
    (∀ rest : List Nat,
      runLoop R um pr me (encodeFrame bad ++ rest) =
        (encodeFrame (me e) :: (runLoop R um pr me rest).1,
          (runLoop R um pr me rest).2))
    ∧ ∀ (good reply : List Nat) (req : R),
        um good = .ok req → pr req = .ok reply →
        0 < good.length → good.length ≤ maxMessageLength →
        runLoop R um pr me (encodeFrame bad ++ encodeFrame good) =
          ([encodeFrame (me e), encodeFrame reply], .eof) := by
  have hstep : ∀ rest : List Nat,
      runLoop R um pr me (encodeFrame bad ++ rest) =
        (encodeFrame (me e) :: (runLoop R um pr me rest).1,
          (runLoop R um pr me rest).2) := by
    intro rest
    exact runLoop_frame_error R um pr me (readFrame_encodeFrame bad rest h0 h1) hum
  refine ⟨hstep, fun good reply req hg hp hg0 hg1 => ?_⟩
  rw [hstep (encodeFrame good)]
  have hf : readFrame (encodeFrame good) = .frame good [] := by
    have := readFrame_encodeFrame good [] hg0 hg1
    rwa [List.append_nil] at this
  rw [runLoop_frame_ok R um pr me hf hg hp, runLoop_nil]

/-- C1 witness: the resilience theorem applied with a concrete
unmarshaller (accepting only the one-byte body [52]), a concrete
processor, concrete malformed bytes [1, 2, 3], and a concrete well-formed
second frame, discharging every hypothesis. -/
theorem malformed_frame_resilience_witness :
    (fun b => if b = [52] then Except.ok () else Except.error ('x' :: []) :
        List Nat → Except Str Unit) [1, 2, 3] = Except.error ('x' :: [])
    ∧ 0 < [1, 2, 3].length ∧ [1, 2, 3].length ≤ maxMessageLength
    ∧ runLoop Unit
        (fun b => if b = [52] then Except.ok () else Except.error ('x' :: []))
        (fun _ => Except.ok [9]) (fun _ => [7])
        (encodeFrame [1, 2, 3] ++ encodeFrame [52]) =
        ([encodeFrame [7], encodeFrame [9]], .eof) := by
  refine ⟨rfl, by decide, by decide, ?_⟩
  exact (malformed_frame_resilience Unit
    (fun b => if b = [52] then Except.ok () else Except.error ('x' :: []))
    (fun _ => Except.ok [9]) (fun _ => [7]) [1, 2, 3] ('x' :: [])
    rfl (by decide) (by decide)).2 [52] [9] ()
    rfl rfl (by decide) (by decide)

/-! ## Data model (pkg/onepassword/client.go, pkg/core/session.go) -/

/-- OPURL: a 1Password URL entry of a login item. -/
structure OPURL where
  Label : Str
  Primary : Bool
  Href : Str
deriving DecidableEq, Inhabited

/-- OPTOTPDetails: the nested TOTP secret of a one-time-password field. -/
structure OPTOTPDetails where
  Secret : Str
deriving DecidableEq, Inhabited

/-- OPField: a 1Password item field. -/
structure OPField where
  ID : Str
  «Type» : Str
  Purpose : Str
  Label : Str
  Value : Str
  TOTPDetails : OPTOTPDetails
deriving DecidableEq, Inhabited

/-- OPVault: the owning vault reference of an item. -/
structure OPVault where
  ID : Str
  Name : Str
deriving DecidableEq, Inhabited

/-- OPItem: a 1Password login item. -/
structure OPItem where
  ID : Str
  Title : Str
  Category : Str
  Vault : OPVault
  Fields : List OPField
  URLs : List OPURL
  Tags : List Str
deriving DecidableEq, Inhabited

/-- URLSource: a URL collected from either the urls array or a field. -/
structure URLSource where
  URL : Str
  Label : Str
  Primary : Bool
  Source : Str
deriving DecidableEq, Inhabited

/-- CumulocitySession (pkg/core/session.go): the synthesized session
record. -/
structure CumulocitySession where
  SessionURI : Str := []
  Name : Str := []
  Host : Str := []
  Username : Str := []
  Password : Str := []
  Tenant : Str := []
  TOTP : Str := []
  TOTPSecret : Str := []
  ItemID : Str := []
  ItemName : Str := []
  VaultID : Str := []
  VaultName : Str := []
  Tags : List Str := []
deriving DecidableEq, Inhabited

/-! ## Reveal masking (cmd/root.go: applyRevealFlag) -/

/-- The fixed placeholder written over secret fields when reveal is false. -/
def placeholder : Str := "***".data

/-- Model of applyRevealFlag: copy the session and, unless reveal is set,
overwrite each non-empty secret field (password, TOTP code, TOTP secret)
of the copy with the placeholder. -/
def applyRevealFlag (session : CumulocitySession) (reveal : Bool) :
    CumulocitySession :=
  let outputSession := session
  if !reveal then
    let outputSession :=
      if outputSession.Password ≠ [] then
        { outputSession with Password := placeholder } else outputSession
    let outputSession :=
      if outputSession.TOTP ≠ [] then
        { outputSession with TOTP := placeholder } else outputSession
    let outputSession :=
      if outputSession.TOTPSecret ≠ [] then
        { outputSession with TOTPSecret := placeholder } else outputSession
    outputSession
  else outputSession

/-- Pointer-level model of applyRevealFlag: the Go function receives a
pointer to the canonical session, copies the pointed-to value into
outputSession, mutates only the copy, and returns a pointer to the copy.
The pair is (value of the canonical session after the call, returned
output); the first component records that the source is never written. -/
def applyRevealFlagProc (session : CumulocitySession) (reveal : Bool) :
    CumulocitySession × CumulocitySession :=
  (session, applyRevealFlag session reveal)

/-- C6.  Reveal masking operates on a copy and never mutates the source:
for every session, the canonical session is unchanged by serialization
with either reveal value; with reveal true the output carries the real
values (it equals the source); with reveal false each non-empty secret
field (password, TOTP code, TOTP secret) is the fixed placeholder in the
output while every non-secret field of the output is unchanged. -/
theorem reveal_masking (s : CumulocitySession) :
    ((applyRevealFlagProc s true).1 = s ∧ (applyRevealFlagProc s false).1 = s)
    ∧ (applyRevealFlagProc s true).2 = s
    ∧ (s.Password ≠ [] → (applyRevealFlag s false).Password = placeholder)
    ∧ (s.TOTP ≠ [] → (applyRevealFlag s false).TOTP = placeholder)
    ∧ (s.TOTPSecret ≠ [] → (applyRevealFlag s false).TOTPSecret = placeholder)
    ∧ ((applyRevealFlag s false).SessionURI = s.SessionURI
        ∧ (applyRevealFlag s false).Name = s.Name
        ∧ (applyRevealFlag s false).Host = s.Host
        ∧ (applyRevealFlag s false).Username = s.Username
        ∧ (applyRevealFlag s false).Tenant = s.Tenant
        ∧ (applyRevealFlag s false).ItemID = s.ItemID
        ∧ (applyRevealFlag s false).ItemName = s.ItemName
        ∧ (applyRevealFlag s false).VaultID = s.VaultID
        ∧ (applyRevealFlag s false).VaultName = s.VaultName
        ∧ (applyRevealFlag s false).Tags = s.Tags) := by
  refine ⟨⟨rfl, rfl⟩, rfl, ?_, ?_, ?_, ?_⟩
  · intro h
    by_cases ht : s.TOTP = [] <;> by_cases hts : s.TOTPSecret = [] <;>
      simp_all [applyRevealFlag]
  · intro h
    by_cases hp : s.Password = [] <;> by_cases hts : s.TOTPSecret = [] <;>
      simp_all [applyRevealFlag]
  · intro h
    by_cases hp : s.Password = [] <;> by_cases ht : s.TOTP = [] <;>
      simp_all [applyRevealFlag]
  · by_cases hp : s.Password = [] <;> by_cases ht : s.TOTP = [] <;>
      by_cases hts : s.TOTPSecret = [] <;>
      simp_all [applyRevealFlag]

/-- C6 witness: the masking facts applied at a concrete session whose
password is "secret123", with non-empty TOTP code and secret. -/
theorem reveal_masking_witness :
    (({ Password := "secret123".data, TOTP := "123456".data,
        TOTPSecret := "S3CR3T".data } : CumulocitySession).Password ≠ [])
    ∧ (applyRevealFlag
        { Password := "secret123".data, TOTP := "123456".data,
          TOTPSecret := "S3CR3T".data } false).Password = placeholder
    ∧ (applyRevealFlagProc
        { Password := "secret123".data, TOTP := "123456".data,
          TOTPSecret := "S3CR3T".data } false).1 =
      { Password := "secret123".data, TOTP := "123456".data,
        TOTPSecret := "S3CR3T".data }
    ∧ (applyRevealFlagProc
        { Password := "secret123".data, TOTP := "123456".data,
          TOTPSecret := "S3CR3T".data } true).2 =
      { Password := "secret123".data, TOTP := "123456".data,
        TOTPSecret := "S3CR3T".data } :=
  ⟨by decide,
    (reveal_masking _).2.2.1 (by decide),
    (reveal_masking _).1.2,
    (reveal_masking _).2.1⟩

/-! ## URL field qualification (pkg/onepassword/client.go: isURLField) -/

/-- Model of isURLField: a field qualifies as a URL field when its value
is non-empty after trimming whitespace and either its lower-cased label is
"website" or "url", or its upper-cased type is "URL". -/
def isURLField (field : OPField) : Bool :=
  if trimSpace field.Value == [] then false
  else
    let fieldLabel := strToLower field.Label
    let fieldType := strToUpper field.«Type»
    (fieldLabel == "website".data || fieldLabel == "url".data)
      || fieldType == "URL".data

/-- The qualification rule exactly as claim C8 words it: value non-empty
after trimming, and label case-insensitively "website" or "url" or type
CASE-SENSITIVELY equal to "URL". -/
def isURLFieldClaimC8 (field : OPField) : Prop :=
  trimSpace field.Value ≠ []
    ∧ ((strToLower field.Label = "website".data
        ∨ strToLower field.Label = "url".data)
      ∨ field.«Type» = "URL".data)

/-- The qualification rule as amended: the type comparison is
case-insensitive (the code upper-cases the declared type before comparing
with "URL"), everything else as in the claim. -/
def isURLFieldAmended (field : OPField) : Prop :=
  trimSpace field.Value ≠ []
    ∧ ((strToLower field.Label = "website".data
        ∨ strToLower field.Label = "url".data)
      ∨ strToUpper field.«Type» = "URL".data)

/-- C8 counterexample: a field whose declared type is lower-case "url"
(label matching neither "website" nor "url", value non-empty) does qualify
in the code, while the claim's case-sensitive rule says it must not. -/
theorem url_field_type_case_counterexample :
    isURLField { ID := "f1".data, «Type» := "url".data, Purpose := [],
                 Label := "endpoint".data, Value := "https://a.example".data,
                 TOTPDetails := ⟨[]⟩ } = true
    ∧ ¬ isURLFieldClaimC8
        { ID := "f1".data, «Type» := "url".data, Purpose := [],
          Label := "endpoint".data, Value := "https://a.example".data,
          TOTPDetails := ⟨[]⟩ } := by
  constructor
  · decide
  · intro h
    exact absurd h.2 (by decide)

/-- C8 amended.  A field qualifies as a URL field if and only if its value
is non-empty after trimming whitespace and either its label
case-insensitively equals "website" or "url", or its declared type
case-insensitively equals "URL" (the code upper-cases the type before the
comparison, so type "url" qualifies too). -/
theorem url_field_qualification (field : OPField) :
    isURLField field = true ↔ isURLFieldAmended field := by
  unfold isURLField isURLFieldAmended
  by_cases hv : trimSpace field.Value = []
  · simp [hv]
  · simp only [beq_iff_eq, hv, if_neg, if_false]
    simp [hv]

/-! ## Go sort.Slice (Go 1.21, sort/zsortfunc.go)

collectURLs sorts with sort.Slice, whose algorithm is pdqsort.  The
subroutines below transliterate the generated `_func` variants:
insertionSort, siftDown/heapSort, reverseRange, partialInsertionSort,
breakPatterns (with its xorshift generator), choosePivot (order2, median,
medianAdjacent) and the two partition routines.  The element array is the
list l, data.Less i j is `less (getN l i) (getN l j)` and data.Swap is
swapN.  The scanning indices of the partition routines transiently reach
-1 in Go, so those are carried as integers; every loop either has a
decreasing measure or (for the partition outer loops and the top-level
pdqsort loop, whose termination argument in Go is non-structural) a fuel
counter that callers size generously enough never to run out. -/

/-- Element read data[i] (indices are always in bounds when the Go code
runs; out-of-range reads return the default and never occur on executed
paths). -/
def getN [Inhabited α] (l : List α) (i : Nat) : α := l.getD i default

/-- data.Swap(i, j). -/
def swapN [Inhabited α] (l : List α) (i j : Nat) : List α :=
  (l.set i (getN l j)).set j (getN l i)

/-- Inner loop of insertionSort_func: bubble the element at j left while
it is less than its left neighbour, stopping at index a (structural
recursion on j; the pattern j+1 stands for the Go loop variable, whose
left neighbour is j). -/
def isortInner [Inhabited α] (less : α → α → Bool) (a : Nat)
    (l : List α) : Nat → List α
  | 0 => l
  | j + 1 =>
    if a < j + 1 then
      if less (getN l (j + 1)) (getN l j) then
        isortInner less a (swapN l (j + 1) j) j
      else l
    else l

/-- insertionSort_func(data, a, b): for i from a+1 to b-1 bubble data[i]
into place. -/
def insertionSortRange [Inhabited α] (less : α → α → Bool)
    (l : List α) (a b : Nat) : List α :=
  (List.range' (a + 1) (b - a - 1)).foldl (isortInner less a) l

/-- Loop of siftDown_func: restore the max-heap property below root
(fuelled; sized by callers to the heap height, it cannot run out because
child at least doubles root each round). -/
def siftDownLoop [Inhabited α] (less : α → α → Bool) :
    Nat → List α → Nat → Nat → Nat → List α
  | 0, l, _, _, _ => l
  | fuel + 1, l, hi, first, root =>
    if 2 * root + 1 ≥ hi then l
    else
      let child := 2 * root + 1
      let child :=
        if child + 1 < hi
            ∧ less (getN l (first + child)) (getN l (first + child + 1)) = true
        then child + 1 else child
      if less (getN l (first + root)) (getN l (first + child)) = false then l
      else siftDownLoop less fuel (swapN l (first + root) (first + child)) hi
        first child

/-- heapSort_func(data, a, b). -/
def heapSortRange [Inhabited α] (less : α → α → Bool) (l : List α)
    (a b : Nat) : List α :=
  let first := a
  let hi := b - a
  let l := (List.range ((hi - 1) / 2 + 1)).reverse.foldl
    (fun acc i => siftDownLoop less (hi + 1) acc hi first i) l
  (List.range hi).reverse.foldl
    (fun acc i => siftDownLoop less (i + 1) (swapN acc first (first + i)) i first 0) l

/-- Loop of reverseRange_func (fuelled by half the range length). -/
def reverseRangeLoop [Inhabited α] : Nat → List α → Nat → Nat → List α
  | 0, l, _, _ => l
  | fuel + 1, l, i, j =>
    if i < j then reverseRangeLoop fuel (swapN l i j) (i + 1) (j - 1) else l

/-- reverseRange_func(data, a, b). -/
def reverseRange [Inhabited α] (l : List α) (a b : Nat) : List α :=
  reverseRangeLoop (b + 1) l a (b - 1)

/-- Scan of partialInsertionSort_func: advance i while the adjacent pair
(i-1, i) is in order (fuelled; i only grows towards b). -/
def pisScan [Inhabited α] (less : α → α → Bool) (l : List α) :
    Nat → Nat → Nat → Nat
  | 0, _, i => i
  | fuel + 1, b, i =>
    if i < b ∧ less (getN l i) (getN l (i - 1)) = false then
      pisScan less l fuel b (i + 1)
    else i

/-- Left shift of partialInsertionSort_func: bubble the smaller element
left while out of order, down to index 1 (structural on j; the Go loop
guard j >= 1 is the pattern j+1). -/
def pisShiftLeft [Inhabited α] (less : α → α → Bool) : List α → Nat → List α
  | l, 0 => l
  | l, j + 1 =>
    if less (getN l (j + 1)) (getN l j) = true then
      pisShiftLeft less (swapN l (j + 1) j) j
    else l

/-- Right shift of partialInsertionSort_func: bubble the greater element
right while out of order, up to index b-1 (fuelled; j only grows). -/
def pisShiftRight [Inhabited α] (less : α → α → Bool) :
    Nat → List α → Nat → Nat → List α
  | 0, l, _, _ => l
  | fuel + 1, l, b, j =>
    if j < b ∧ less (getN l j) (getN l (j - 1)) = true then
      pisShiftRight less fuel (swapN l j (j - 1)) b (j + 1)
    else l

/-- Outer loop of partialInsertionSort_func (at most maxSteps = 5 adjacent
out-of-order pairs get fixed; arrays shorter than shortestShifting = 50
are never shifted).  Returns the array and whether it is sorted. -/
def partInsertionSortLoop [Inhabited α] (less : α → α → Bool) :
    List α → Nat → Nat → Nat → Nat → List α × Bool
  | l, _, _, _, 0 => (l, false)
  | l, a, b, i, steps + 1 =>
    let i := pisScan less l (b + 1) b i
    if i = b then (l, true)
    else if b - a < 50 then (l, false)
    else
      let l := swapN l i (i - 1)
      let l := if i - a ≥ 2 then pisShiftLeft less l (i - 1) else l
      let l := if b - i ≥ 2 then pisShiftRight less (b + 1) l b (i + 1) else l
      partInsertionSortLoop less l a b i steps

/-- partialInsertionSort_func(data, a, b). -/
def partInsertionSort [Inhabited α] (less : α → α → Bool) (l : List α)
    (a b : Nat) : List α × Bool :=
  partInsertionSortLoop less l a b (a + 1) 5

/-- Fuel counter for bits.Len (structural; halving reaches 0 within n+1
steps). -/
def bitsLenAux : Nat → Nat → Nat
  | 0, _ => 0
  | fuel + 1, n => if n = 0 then 0 else bitsLenAux fuel (n / 2) + 1

/-- The xorshift generator of sort: 64-bit state, shifts 13 / 7 / 17. -/
def xorshiftNext (r : Nat) : Nat :=
  let r := (r ^^^ (r <<< 13)) % 18446744073709551616
  let r := (r ^^^ (r >>> 7)) % 18446744073709551616
  let r := (r ^^^ (r <<< 17)) % 18446744073709551616
  r

/-- bits.Len: number of bits required to represent n. -/
def bitsLen (n : Nat) : Nat := bitsLenAux (n + 1) n

/-- nextPowerOfTwo(length) = 1 << bits.Len(length). -/
def nextPowerOfTwo (length : Nat) : Nat := 2 ^ bitsLen length

/-- breakPatterns_func(data, a, b): scatter three elements around the
midpoint using the xorshift generator seeded with the range length. -/
def breakPatterns [Inhabited α] (l : List α) (a b : Nat) : List α :=
  let length := b - a
  if length ≥ 8 then
    let modulus := nextPowerOfTwo length
    let idx := a + length / 4 * 2 - 1
    (([0, 1, 2] : List Nat).foldl (fun st i =>
      let r := xorshiftNext st.2
      let other := r &&& (modulus - 1)
      let other := if other ≥ length then other - length else other
      (swapN st.1 (idx - 1 + i) (a + other), r)) (l, length)).1
  else l

/-- Hints returned by choosePivot_func. -/
inductive SortedHint where
  | increasing : SortedHint
  | decreasing : SortedHint
  | unknown : SortedHint
deriving DecidableEq

/-- order2_func: order two indices by their elements, counting swaps. -/
def order2 [Inhabited α] (less : α → α → Bool) (l : List α)
    (a b swaps : Nat) : Nat × Nat × Nat :=
  if less (getN l b) (getN l a) then (b, a, swaps + 1) else (a, b, swaps)

/-- median_func: index of the median of three elements, counting swaps. -/
def medianOf [Inhabited α] (less : α → α → Bool) (l : List α)
    (a b c swaps : Nat) : Nat × Nat :=
  let (a1, b1, s1) := order2 less l a b swaps
  let (b2, _, s2) := order2 less l b1 c s1
  let (_, b3, s3) := order2 less l a1 b2 s2
  (b3, s3)

/-- medianAdjacent_func: median of data[a-1], data[a], data[a+1]. -/
def medianAdj [Inhabited α] (less : α → α → Bool) (l : List α)
    (a swaps : Nat) : Nat × Nat :=
  medianOf less l (a - 1) a (a + 1) swaps

/-- Translate the swap count into a sortedness hint (0 swaps: increasing;
maxSwaps = 12 swaps: decreasing; otherwise unknown). -/
def pivotHint (j swaps : Nat) : Nat × SortedHint :=
  if swaps = 0 then (j, .increasing)
  else if swaps = 12 then (j, .decreasing)
  else (j, .unknown)

/-- choosePivot_func(data, a, b): static pivot below 8 elements, median of
three up to 49, Tukey ninther from 50 on (shortestNinther = 50). -/
def choosePivot [Inhabited α] (less : α → α → Bool) (l : List α)
    (a b : Nat) : Nat × SortedHint :=
  let len := b - a
  let i := a + len / 4 * 1
  let j := a + len / 4 * 2
  let k := a + len / 4 * 3
  if len ≥ 8 then
    if len ≥ 50 then
      let (i1, s1) := medianAdj less l i 0
      let (j1, s2) := medianAdj less l j s1
      let (k1, s3) := medianAdj less l k s2
      let (j2, s4) := medianOf less l i1 j1 k1 s3
      pivotHint j2 s4
    else
      let (j2, s4) := medianOf less l i j k 0
      pivotHint j2 s4
  else
    pivotHint j 0

/-- First scanning loop of partition_func / partLoop: advance i while
data[i] is less than the pivot value at index a; i and j are the
inclusive integer cursors of the Hoare scheme (fuelled; the cursors close
a gap bounded by the range length). -/
def pScanI [Inhabited α] (less : α → α → Bool) (l : List α) (a : Nat) :
    Nat → Int → Int → Int
  | 0, _, i => i
  | fuel + 1, j, i =>
    if i ≤ j ∧ less (getN l i.toNat) (getN l a) = true then
      pScanI less l a fuel j (i + 1)
    else i

/-- Second scanning loop of partition_func: retreat j while data[j] is not
less than the pivot value at index a. -/
def pScanJ [Inhabited α] (less : α → α → Bool) (l : List α) (a : Nat) :
    Nat → Int → Int → Int
  | 0, _, j => j
  | fuel + 1, i, j =>
    if i ≤ j ∧ less (getN l j.toNat) (getN l a) = false then
      pScanJ less l a fuel i (j - 1)
    else j

/-- Swap rounds of partition_func after the first round (fuelled; the Go
loop terminates because i and j close in by at least two per round, and
callers pass fuel larger than the range length so it never runs out on an
executed path).  Returns the array after the final data.Swap(j, a) and the
pivot position j. -/
def partLoop [Inhabited α] (less : α → α → Bool) (a fb : Nat) :
    Nat → List α → Int → Int → List α × Nat
  | 0, l, _, j => (swapN l j.toNat a, j.toNat)
  | fuel + 1, l, i, j =>
    let i1 := pScanI less l a fb j i
    let j1 := pScanJ less l a fb i1 j
    if i1 > j1 then (swapN l j1.toNat a, j1.toNat)
    else partLoop less a fb fuel (swapN l i1.toNat j1.toNat) (i1 + 1) (j1 - 1)

/-- partition_func(data, a, b, pivot): Hoare partition around data[pivot],
returning (array, newpivot, alreadyPartitioned). -/
def partitionRange [Inhabited α] (less : α → α → Bool) (l : List α)
    (a b pivot : Nat) : List α × Nat × Bool :=
  let fb := b + 2
  let l := swapN l a pivot
  let i : Int := (a : Int) + 1
  let j : Int := (b : Int) - 1
  let i1 := pScanI less l a fb j i
  let j1 := pScanJ less l a fb i1 j
  if i1 > j1 then (swapN l j1.toNat a, j1.toNat, true)
  else
    let l := swapN l i1.toNat j1.toNat
    let r := partLoop less a fb (b - a + 2) l (i1 + 1) (j1 - 1)
    (r.1, r.2, false)

/-- Scanning loops of partitionEqual_func (fuelled like the partition
scans). -/
def peScanI [Inhabited α] (less : α → α → Bool) (l : List α) (a : Nat) :
    Nat → Int → Int → Int
  | 0, _, i => i
  | fuel + 1, j, i =>
    if i ≤ j ∧ less (getN l a) (getN l i.toNat) = false then
      peScanI less l a fuel j (i + 1)
    else i

def peScanJ [Inhabited α] (less : α → α → Bool) (l : List α) (a : Nat) :
    Nat → Int → Int → Int
  | 0, _, j => j
  | fuel + 1, i, j =>
    if i ≤ j ∧ less (getN l a) (getN l j.toNat) = true then
      peScanJ less l a fuel i (j - 1)
    else j

/-- Swap rounds of partitionEqual_func (fuelled like partLoop).  Returns
the array and the final i, the start of the strictly-greater suffix. -/
def peLoop [Inhabited α] (less : α → α → Bool) (a fb : Nat) :
    Nat → List α → Int → Int → List α × Nat
  | 0, l, i, _ => (l, i.toNat)
  | fuel + 1, l, i, j =>
    let i1 := peScanI less l a fb j i
    let j1 := peScanJ less l a fb i1 j
    if i1 > j1 then (l, i1.toNat)
    else peLoop less a fb fuel (swapN l i1.toNat j1.toNat) (i1 + 1) (j1 - 1)

/-- partitionEqual_func(data, a, b, pivot): partition into elements equal
to and greater than data[pivot]; returns (array, newpivot). -/
def partitionEqualRange [Inhabited α] (less : α → α → Bool) (l : List α)
    (a b pivot : Nat) : List α × Nat :=
  let l := swapN l a pivot
  let i : Int := (a : Int) + 1
  let j : Int := (b : Int) - 1
  peLoop less a (b + 2) (b - a + 2) l i j

/-- pdqsort_func(data, a, b, limit): the main loop (maxInsertion = 12;
fuelled: Go's termination argument is that every iteration either returns
or strictly shrinks [a, b), and callers pass fuel above the range length
so it never runs out on an executed path). -/
def pdqsortLoop [Inhabited α] (less : α → α → Bool) :
    Nat → List α → Nat → Nat → Nat → Bool → Bool → List α
  | 0, l, _, _, _, _, _ => l
  | fuel + 1, l, a, b, limit, wasBalanced, wasPartitioned =>
    let length := b - a
    if length ≤ 12 then insertionSortRange less l a b
    else if limit = 0 then heapSortRange less l a b
    else
      let (l, limit) :=
        if !wasBalanced then (breakPatterns l a b, limit - 1) else (l, limit)
      let (pivot, hint) := choosePivot less l a b
      let (l, pivot, hint) :=
        if hint = SortedHint.decreasing then
          (reverseRange l a b, (b - 1) - (pivot - a), SortedHint.increasing)
        else (l, pivot, hint)
      let (l, earlyDone) :=
        if wasBalanced && wasPartitioned && decide (hint = SortedHint.increasing) then
          partInsertionSort less l a b
        else (l, false)
      if earlyDone then l
      else if 0 < a ∧ less (getN l (a - 1)) (getN l pivot) = false then
        let (l, mid) := partitionEqualRange less l a b pivot
        pdqsortLoop less fuel l mid b limit wasBalanced wasPartitioned
      else
        let (l, mid, alreadyPartitioned) := partitionRange less l a b pivot
        let leftLen := mid - a
        let rightLen := b - mid
        let balanceThreshold := length / 8
        let wasBalanced2 := decide (min leftLen rightLen ≥ balanceThreshold)
        if leftLen < rightLen then
          let l := pdqsortLoop less fuel l a mid limit true true
          pdqsortLoop less fuel l (mid + 1) b limit wasBalanced2 alreadyPartitioned
        else
          let l := pdqsortLoop less fuel l (mid + 1) b limit true true
          pdqsortLoop less fuel l a mid limit wasBalanced2 alreadyPartitioned

/-- sort.Slice(x, less): limit = bits.Len(length), then pdqsort over the
whole slice. -/
def goSortSlice [Inhabited α] (less : α → α → Bool) (l : List α) : List α :=
  pdqsortLoop less (l.length + 1) l 0 l.length (bitsLen l.length) true true

/-! ### Stability of the insertion-sort path

For ranges of at most 12 elements pdqsort immediately runs insertion sort.
The following simulation argument shows that for a comparison of the form
`key x && !key y` (the primary-first comparison of collectURLs), the
swap-based insertion sort computes exactly the stable two-way partition:
elements with key true first, each class in input order. -/

/-- List-level simulation of the inner bubbling loop of insertionSort: the
moving element x with the reversed prefix to its left and the passed
elements to its right. -/
def bubbleLeft (less : α → α → Bool) (x : α) : List α → List α → List α
  | [], suf => x :: suf
  | y :: ys, suf =>
    if less x y then bubbleLeft less x ys (y :: suf)
    else (y :: ys).reverse ++ x :: suf

lemma bubbleLeft_suffix (less : α → α → Bool) (x : α) :
    ∀ (rev suf : List α),
      bubbleLeft less x rev suf = bubbleLeft less x rev [] ++ suf := by
  intro rev
  induction rev with
  | nil => intro suf; simp [bubbleLeft]
  | cons y ys ih =>
    intro suf
    by_cases hxy : less x y
    · simp only [bubbleLeft, hxy, if_true]
      rw [ih (y :: suf), ih [y], List.append_assoc]
      simp
    · simp only [bubbleLeft, hxy, if_false]
      simp

lemma getN_append_at [Inhabited α] (l1 : List α) (z : α) (l2 : List α) :
    getN (l1 ++ z :: l2) l1.length = z := by
  induction l1 with
  | nil => simp [getN]
  | cons a l ih => simpa [getN, List.getD_cons_succ] using ih

lemma getN_append_at_succ [Inhabited α] (l1 : List α) (z w : α) (l2 : List α) :
    getN (l1 ++ z :: w :: l2) (l1.length + 1) = w := by
  induction l1 with
  | nil => simp [getN]
  | cons a l ih => simpa [getN, List.getD_cons_succ] using ih

lemma swapN_adjacent [Inhabited α] :
    ∀ (pre : List α) (y x : α) (post : List α),
      swapN (pre ++ y :: x :: post) (pre.length + 1) pre.length
        = pre ++ x :: y :: post := by
  intro pre
  induction pre with
  | nil =>
    intro y x post
    simp [swapN, getN]
  | cons p ps ih =>
    intro y x post
    have := ih y x post
    simp only [swapN, getN] at this ⊢
    simp only [List.cons_append, List.length_cons, List.getD_cons_succ,
      List.set_cons_succ]
    rw [this]

lemma isortInner_eq_bubble [Inhabited α] (less : α → α → Bool) :
    ∀ (pre : List α) (x : α) (post : List α),
      isortInner less 0 (pre ++ x :: post) pre.length
        = bubbleLeft less x pre.reverse [] ++ post := by
  intro pre
  induction pre using List.reverseRecOn with
  | nil =>
    intro x post
    rfl
  | append_singleton ys y ih =>
    intro x post
    have hlen : (ys ++ [y]).length = ys.length + 1 := by simp
    rw [hlen]
    rw [isortInner]
    rw [if_pos (by omega)]
    have hassoc : (ys ++ [y]) ++ x :: post = ys ++ y :: x :: post := by simp
    have hx : getN ((ys ++ [y]) ++ x :: post) (ys.length + 1) = x := by
      rw [hassoc]; exact getN_append_at_succ ys y x post
    have hy : getN ((ys ++ [y]) ++ x :: post) ys.length = y := by
      rw [hassoc]
      exact getN_append_at ys y (x :: post)
    rw [hx, hy]
    by_cases hxy : less x y
    · rw [if_pos hxy]
      have hswap : swapN ((ys ++ [y]) ++ x :: post) (ys.length + 1)
          ys.length = ys ++ x :: y :: post := by
        rw [hassoc]
        exact swapN_adjacent ys y x post
      rw [hswap]
      have := ih x (y :: post)
      rw [this]
      simp only [List.reverse_append, List.reverse_cons, List.reverse_nil,
        List.nil_append, List.singleton_append]
      rw [show bubbleLeft less x (y :: ys.reverse) [] =
        bubbleLeft less x ys.reverse [y] from by simp [bubbleLeft, hxy]]
      rw [bubbleLeft_suffix less x ys.reverse [y], List.append_assoc]
      simp
    · rw [if_neg hxy]
      simp only [List.reverse_append, List.reverse_cons, List.reverse_nil,
        List.nil_append, List.singleton_append]
      rw [show bubbleLeft less x (y :: ys.reverse) [] =
        (y :: ys.reverse).reverse ++ x :: [] from by simp [bubbleLeft, hxy]]
      simp

/-- The primary-first comparison family: key x && !key y. -/
def keyLess (key : α → Bool) : α → α → Bool := fun x y => key x && !key y

lemma bubbleLeft_skip (key : α → Bool) (x : α) (hx : key x = true) :
    ∀ (fs rest suf : List α), (∀ y ∈ fs, key y = false) →
      bubbleLeft (keyLess key) x (fs ++ rest) suf
        = bubbleLeft (keyLess key) x rest (fs.reverse ++ suf) := by
  intro fs
  induction fs with
  | nil => intro rest suf _; simp
  | cons f fs ih =>
    intro rest suf hall
    have hf : key f = false := hall f (by simp)
    have hless : keyLess key x f = true := by simp [keyLess, hx, hf]
    have hc : (f :: fs) ++ rest = f :: (fs ++ rest) := rfl
    rw [hc]
    rw [show bubbleLeft (keyLess key) x (f :: (fs ++ rest)) suf
      = if keyLess key x f then bubbleLeft (keyLess key) x (fs ++ rest) (f :: suf)
        else (f :: (fs ++ rest)).reverse ++ x :: suf from rfl]
    rw [if_pos hless]
    rw [ih rest (f :: suf) (fun y hy => hall y (by simp [hy]))]
    simp

lemma bubbleLeft_stop_true (key : α → Bool) (x : α) (hx : key x = true) :
    ∀ (tp suf : List α), (∀ t ∈ tp, key t = true) →
      bubbleLeft (keyLess key) x tp.reverse suf = tp ++ x :: suf := by
  intro tp suf hall
  cases tp using List.reverseRecOn with
  | nil => simp [bubbleLeft]
  | append_singleton ts t =>
    have ht : key t = true := hall t (by simp)
    have hless : keyLess key x t = false := by simp [keyLess, ht]
    simp only [List.reverse_append, List.reverse_cons, List.reverse_nil,
      List.nil_append, List.singleton_append, bubbleLeft, hless, if_false]
    simp

lemma bubbleLeft_false (key : α → Bool) (x : α) (hx : key x = false) :
    ∀ (rev suf : List α),
      bubbleLeft (keyLess key) x rev suf = rev.reverse ++ x :: suf := by
  intro rev suf
  cases rev with
  | nil => simp [bubbleLeft]
  | cons y ys =>
    have hless : keyLess key x y = false := by simp [keyLess, hx]
    simp [bubbleLeft, hless]

lemma bubble_prefix (key : α → Bool) (x : α) (tp fp : List α)
    (ht : ∀ t ∈ tp, key t = true) (hf : ∀ f ∈ fp, key f = false) :
    bubbleLeft (keyLess key) x (tp ++ fp).reverse []
      = if key x then tp ++ x :: fp else (tp ++ fp) ++ [x] := by
  cases hx : key x with
  | true =>
    rw [if_pos rfl]
    rw [List.reverse_append]
    rw [bubbleLeft_skip key x hx fp.reverse tp.reverse []
      (fun y hy => hf y (List.mem_reverse.mp hy))]
    rw [List.reverse_reverse, List.append_nil]
    exact bubbleLeft_stop_true key x hx tp fp ht
  | false =>
    rw [if_neg (by simp [hx])]
    rw [bubbleLeft_false key x hx]
    simp

lemma isort_fold (key : α → Bool) [Inhabited α] :
    ∀ (suffix tp fp : List α),
      (∀ t ∈ tp, key t = true) → (∀ f ∈ fp, key f = false) →
      (List.range' (tp.length + fp.length) suffix.length).foldl
          (isortInner (keyLess key) 0) (tp ++ fp ++ suffix)
        = (tp ++ suffix.filter key) ++ (fp ++ suffix.filter (fun a => !key a)) := by
  intro suffix
  induction suffix with
  | nil => intro tp fp ht hf; simp
  | cons x rest ih =>
    intro tp fp ht hf
    rw [List.length_cons, List.range'_succ, List.foldl_cons]
    have hstep : isortInner (keyLess key) 0 (tp ++ fp ++ x :: rest)
        (tp.length + fp.length)
        = (if key x then tp ++ x :: fp else (tp ++ fp) ++ [x]) ++ rest := by
      have h1 : tp ++ fp ++ x :: rest = (tp ++ fp) ++ x :: rest := by simp
      have h2 : tp.length + fp.length = (tp ++ fp).length := by simp
      rw [h1, h2, isortInner_eq_bubble (keyLess key) (tp ++ fp) x rest,
        bubble_prefix key x tp fp ht hf]
    rw [hstep]
    cases hx : key x with
    | true =>
      rw [if_pos rfl]
      have hshape : (tp ++ x :: fp) ++ rest = (tp ++ [x]) ++ fp ++ rest := by
        simp
      have hlen2 : tp.length + fp.length + 1 = (tp ++ [x]).length + fp.length := by
        simp only [List.length_append, List.length_singleton]
        omega
      rw [hshape, hlen2,
        ih (tp ++ [x]) fp
          (fun t hm => by
            rcases List.mem_append.mp hm with h | h
            · exact ht t h
            · simp at h; subst h; exact hx)
          hf]
      simp [List.filter_cons, hx]
    | false =>
      rw [if_neg (by simp [hx])]
      have hshape : ((tp ++ fp) ++ [x]) ++ rest = tp ++ (fp ++ [x]) ++ rest := by
        simp
      have hlen2 : tp.length + fp.length + 1 = tp.length + (fp ++ [x]).length := by
        simp only [List.length_append, List.length_singleton]
        omega
      rw [hshape, hlen2,
        ih tp (fp ++ [x]) ht
          (fun f hm => by
            rcases List.mem_append.mp hm with h | h
            · exact hf f h
            · simp at h; subst h; exact hx)]
      simp [List.filter_cons, hx]

lemma insertionSortRange_stable (key : α → Bool) [Inhabited α] (l : List α) :
    insertionSortRange (keyLess key) l 0 l.length
      = l.filter key ++ l.filter (fun a => !key a) := by
  cases l with
  | nil => simp [insertionSortRange]
  | cons x rest =>
    unfold insertionSortRange
    simp only [List.length_cons, Nat.zero_add, Nat.add_sub_cancel,
      Nat.sub_zero]
    cases hx : key x with
    | true =>
      have hfold := isort_fold key rest [x] []
        (fun t hm => by simp at hm; subst hm; exact hx)
        (fun f hm => by simp at hm)
      simp only [List.length_singleton, List.length_nil, List.append_nil,
        List.singleton_append, Nat.add_zero] at hfold
      rw [hfold]
      simp [List.filter_cons, hx]
    | false =>
      have hfold := isort_fold key rest [] [x]
        (fun t hm => by simp at hm)
        (fun f hm => by simp at hm; subst hm; exact hx)
      simp only [List.length_singleton, List.length_nil, List.nil_append,
        List.singleton_append, Nat.zero_add] at hfold
      rw [hfold]
      simp [List.filter_cons, hx]

set_option maxHeartbeats 2000000 in
/-- For a slice of at most maxInsertion = 12 elements, sort.Slice with the
primary-first comparison is exactly the stable partition. -/
lemma goSortSlice_small (key : α → Bool) [Inhabited α] (l : List α)
    (h : l.length ≤ 12) :
    goSortSlice (keyLess key) l
      = l.filter key ++ l.filter (fun a => !key a) := by
  unfold goSortSlice
  rw [pdqsortLoop]
  rw [if_pos (by simpa using h)]
  exact insertionSortRange_stable key l

/-! ## URL collection (pkg/onepassword/client.go: collectURLs) -/

/-- The combined URL list before sorting: every entry of the structured
urls array (provenance "urls"), then every qualifying field (provenance
"field", primary always false). -/
def rawURLs (opi : OPItem) : List URLSource :=
  (opi.URLs.map (fun url =>
    { URL := url.Href, Label := url.Label, Primary := url.Primary,
      Source := "urls".data }))
  ++ ((opi.Fields.filter isURLField).map (fun field =>
    { URL := field.Value, Label := field.Label, Primary := false,
      Source := "field".data }))

/-- Model of collectURLs: gather both sources, then
sort.Slice(allURLs, func(i, j) { return allURLs[i].Primary && !allURLs[j].Primary }). -/
def collectURLs (opi : OPItem) : List URLSource :=
  goSortSlice (fun x y => x.Primary && !y.Primary) (rawURLs opi)

/-- A login item with 13 structured URLs (hrefs "a".."m"), primary at
positions 1 ("b") and 7 ("h"), and no URL fields. -/
def stabilityCexItem : OPItem :=
  { ID := "item13".data, Title := "T".data, Category := "LOGIN".data,
    Vault := ⟨"v".data, "V".data⟩, Fields := [],
    URLs := [⟨[], false, "a".data⟩, ⟨[], true, "b".data⟩,
             ⟨[], false, "c".data⟩, ⟨[], false, "d".data⟩,
             ⟨[], false, "e".data⟩, ⟨[], false, "f".data⟩,
             ⟨[], false, "g".data⟩, ⟨[], true, "h".data⟩,
             ⟨[], false, "i".data⟩, ⟨[], false, "j".data⟩,
             ⟨[], false, "k".data⟩, ⟨[], false, "l".data⟩,
             ⟨[], false, "m".data⟩],
    Tags := [] }

/-- C3 counterexample: on an item with 13 collected URLs the sort used by
collectURLs (Go sort.Slice, i.e. pdqsort) is not a stable partition: the
two primary entries come out as "h" before "b", the reverse of their
input order, and the non-primary entries are permuted as well.  The claim
that the Collector always returns entries with primary = true first WITH
the relative order inside each class preserved is therefore false as
stated. -/
theorem url_collector_stability_counterexample :
    collectURLs stabilityCexItem
      ≠ (rawURLs stabilityCexItem).filter (fun u => u.Primary)
        ++ (rawURLs stabilityCexItem).filter (fun u => !u.Primary)
    ∧ (collectURLs stabilityCexItem).map URLSource.URL
      = ["h".data, "b".data, "g".data, "d".data, "e".data, "f".data,
         "a".data, "c".data, "i".data, "j".data, "k".data, "l".data,
         "m".data] := by
  constructor
  · decide
  · decide

/-- An item carrying exactly the 3-URL example of the claim:
[{primary:false,"a"}, {primary:true,"b"}, {primary:false,"c"}]. -/
def primaryExampleItem : OPItem :=
  { ID := "item3".data, Title := "T".data, Category := "LOGIN".data,
    Vault := ⟨"v".data, "V".data⟩, Fields := [],
    URLs := [⟨[], false, "a".data⟩, ⟨[], true, "b".data⟩,
             ⟨[], false, "c".data⟩],
    Tags := [] }

/-- C3 amended.  For every item whose combined URL list (structured URLs
then qualifying field URLs) has at most 12 entries, collectURLs returns
the stable primary-first partition: entries with primary = true first,
relative order preserved inside each class (below 13 elements Go's
sort.Slice runs its insertion sort, which is stable); in particular the
3-URL example [a(primary:false), b(primary:true), c(primary:false)] comes
out in the order b, a, c.  For 13 or more combined URLs the sort is not
stable (see the counterexample), so the stability part of the claim holds
only under this size bound, while for larger lists only the primary-first
ordering — not stability — is promised by the algorithm. -/
theorem url_collector_stable_partition_small :
    (∀ item : OPItem, (rawURLs item).length ≤ 12 →
      collectURLs item
        = (rawURLs item).filter (fun u => u.Primary)
          ++ (rawURLs item).filter (fun u => !u.Primary))
    ∧ (collectURLs primaryExampleItem).map URLSource.URL
      = ["b".data, "a".data, "c".data] := by
  constructor
  · intro item h
    unfold collectURLs
    rw [show (fun x y : URLSource => x.Primary && !y.Primary)
      = keyLess (fun u : URLSource => u.Primary) from rfl]
    exact goSortSlice_small (fun u : URLSource => u.Primary) (rawURLs item) h
  · decide

/-- C3 witness: the amended statement applied to the concrete 3-URL
example item, discharging the size hypothesis. -/
theorem url_collector_stable_partition_small_witness :
    (rawURLs primaryExampleItem).length ≤ 12
    ∧ collectURLs primaryExampleItem
      = (rawURLs primaryExampleItem).filter (fun u => u.Primary)
        ++ (rawURLs primaryExampleItem).filter (fun u => !u.Primary) :=
  ⟨by decide,
    url_collector_stable_partition_small.1 primaryExampleItem (by decide)⟩

/-! ## Core session synthesis (pkg/core/session.go) -/

/-- Vault (pkg/core): id and display name. -/
structure Vault where
  ID : Str
  Name : Str
deriving DecidableEq, Inhabited

/-- Item (pkg/core): the simplified item the synthesizer consumes. -/
structure Item where
  ID : Str
  Title : Str
  Tags : List Str
  Vault : Vault
deriving DecidableEq, Inhabited

/-- ItemFields (pkg/core): fields extracted from an item. -/
structure ItemFields where
  Username : Str
  Password : Str
  TOTPSecret : Str
  Tenant : Str
deriving DecidableEq, Inhabited

/-- Model of NormalizeDisplayURL: strip any protocol (split on "://" and
take the second part when present) and a trailing slash. -/
def NormalizeDisplayURL (url : Str) : Str :=
  if url = [] then url
  else
    let parts := splitSeq ("://".data) url
    let normalized :=
      match parts with
      | _ :: p1 :: _ => p1
      | _ => url
    trimSfx ("/".data) normalized

/-- Model of extractHostname (pkg/core): normalize, cut at the first "/",
take the first dot-segment; segments over 20 characters are shortened to
their first two hyphen-delimited parts, or truncated to 20 characters plus
an ellipsis. -/
def extractHostname (urlStr : Str) : Str :=
  let hostname := NormalizeDisplayURL urlStr
  let hostname :=
    match splitFirst '/' hostname with
    | some (pre, _) => pre
    | none => hostname
  match splitChar '.' hostname with
  | [] => hostname
  | firstPart :: _ =>
    if firstPart.length > 20 then
      if containsChar '-' firstPart then
        match splitChar '-' firstPart with
        | s1 :: s2 :: _ => s1 ++ "-".data ++ s2
        | _ => firstPart.take 20 ++ "...".data
      else firstPart.take 20 ++ "...".data
    else firstPart

/-- The label-occurrence counts used for naming decisions (Go builds a
map[string]int by incrementing per URL; lookup of an absent key is 0,
which also models the nil map passed on the no-URL path). -/
def labelCountsOf (urls : List URLSource) : Str → Nat :=
  fun s => urls.countP (fun u => u.Label == s)

/-- Model of BuildSessionName (pkg/core). -/
def BuildSessionName (item : Item) (urlSource : URLSource)
    (urlIndex totalURLs : Nat) (labelCounts : Str → Nat) : Str :=
  if totalURLs = 1 then item.Title
  else if labelCounts urlSource.Label > 1 then
    let hostname := extractHostname urlSource.URL
    if urlSource.Primary then
      item.Title ++ " (".data ++ hostname ++ " - Primary)".data
    else
      item.Title ++ " (".data ++ hostname ++ ")".data
  else if urlSource.Label ≠ [] ∧ urlSource.Label ≠ "website".data then
    item.Title ++ " (".data ++ urlSource.Label ++ ")".data
  else if urlSource.Primary then
    item.Title ++ " (Primary)".data
  else
    item.Title ++ " (URL ".data ++ natToStr (urlIndex + 1) ++ ")".data

/-- Model of BuildSessionURI (pkg/core): op://{vault}/{item}. -/
def BuildSessionURI (vault item : Str) : Str :=
  "op://".data ++ vault ++ "/".data ++ item

/-- Model of FilterMatchingTags: nil when no tags are requested; otherwise
the item tags (in item order, original casing) that case-insensitively
equal some requested tag (the Go nested loop with break appends an item
tag exactly when such a requested tag exists). -/
def FilterMatchingTags (itemTags requestedTags : List Str) : List Str :=
  if requestedTags = [] then []
  else itemTags.filter (fun itemTag =>
    requestedTags.any (fun requestedTag => strEqFold itemTag requestedTag))

/-- Model of CreateSession (pkg/core): when useFiltering is set the
session carries filteredTags, otherwise all item tags. -/
def CreateSession (item : Item) (fields : ItemFields) (vaultName : Str)
    (urlSource : URLSource) (sessionName sessionURI : Str)
    (filteredTags : List Str) (useFiltering : Bool) : CumulocitySession :=
  { SessionURI := sessionURI
    Name := sessionName
    ItemID := item.ID
    ItemName := item.Title
    Username := fields.Username
    Password := fields.Password
    Tenant := fields.Tenant
    Host := urlSource.URL
    VaultID := item.Vault.ID
    VaultName := vaultName
    TOTPSecret := fields.TOTPSecret
    Tags := if useFiltering then filteredTags else item.Tags }

/-- Model of MapToSessions (pkg/core): one session per collected URL (or
a single URL-less session), stable op://{vault.ID}/{item.ID} URI, names
from BuildSessionName, tags filtered when requestedTags is non-empty. -/
def MapToSessions (item : Item) (fields : ItemFields)
    (allURLs : List URLSource) (vaultName : Str)
    (requestedTags : List Str) : List CumulocitySession :=
  let useFiltering := !requestedTags.isEmpty
  let filteredTags :=
    if useFiltering then FilterMatchingTags item.Tags requestedTags else []
  if allURLs.isEmpty then
    let emptyURL : URLSource :=
      { URL := [], Label := [], Primary := false, Source := "none".data }
    let sessionName := BuildSessionName item emptyURL 0 1 (labelCountsOf [])
    let sessionURI := BuildSessionURI item.Vault.ID item.ID
    [CreateSession item fields vaultName emptyURL sessionName sessionURI
      filteredTags useFiltering]
  else
    let labelCounts := labelCountsOf allURLs
    (List.range allURLs.length).map (fun i =>
      let urlSource := getN allURLs i
      CreateSession item fields vaultName urlSource
        (BuildSessionName item urlSource i allURLs.length labelCounts)
        (BuildSessionURI item.Vault.ID item.ID) filteredTags useFiltering)

lemma getN_mapToSessions (item : Item) (fields : ItemFields)
    (allURLs : List URLSource) (vaultName : Str) (requestedTags : List Str)
    (i : Nat) (hi : i < allURLs.length) :
    getN (MapToSessions item fields allURLs vaultName requestedTags) i
      = CreateSession item fields vaultName (getN allURLs i)
          (BuildSessionName item (getN allURLs i) i allURLs.length
            (labelCountsOf allURLs))
          (BuildSessionURI item.Vault.ID item.ID)
          (if !requestedTags.isEmpty then
            FilterMatchingTags item.Tags requestedTags else [])
          (!requestedTags.isEmpty) := by
  have hne : allURLs.isEmpty = false := by
    cases allURLs with
    | nil => simp at hi
    | cons u us => simp
  unfold MapToSessions
  rw [hne]
  simp only [Bool.false_eq_true, if_false]
  simp only [getN, List.getD_eq_getD_get?, List.get?_map]
  rw [List.get?_range hi]
  rfl

lemma length_mapToSessions (item : Item) (fields : ItemFields)
    (allURLs : List URLSource) (vaultName : Str) (requestedTags : List Str)
    (h : allURLs ≠ []) :
    (MapToSessions item fields allURLs vaultName requestedTags).length
      = allURLs.length := by
  unfold MapToSessions
  rw [show allURLs.isEmpty = false by simpa using h]
  simp

lemma mem_mapToSessions_tags (item : Item) (fields : ItemFields)
    (allURLs : List URLSource) (vaultName : Str) (requestedTags : List Str)
    (s : CumulocitySession)
    (hs : s ∈ MapToSessions item fields allURLs vaultName requestedTags) :
    s.Tags = if requestedTags = [] then item.Tags
      else FilterMatchingTags item.Tags requestedTags := by
  unfold MapToSessions at hs
  by_cases hreq : requestedTags = []
  · subst hreq
    simp only [List.isEmpty_nil, Bool.not_true, Bool.false_eq_true, if_false,
      if_pos rfl] at hs ⊢
    split at hs
    · simp only [List.mem_singleton] at hs
      subst hs
      rfl
    · rcases List.mem_map.mp hs with ⟨i, _, rfl⟩
      rfl
  · have hne : requestedTags.isEmpty = false := by simpa using hreq
    rw [if_neg hreq]
    simp only [hne, Bool.not_false, if_true] at hs
    split at hs
    · simp only [List.mem_singleton] at hs
      subst hs
      rfl
    · rcases List.mem_map.mp hs with ⟨i, _, rfl⟩
      rfl

/-- C4.  Tag filtering on synthesized sessions: with a non-empty requested
list every session's tag set is exactly the item tags that
case-insensitively equal some requested tag, in item order with original
casing; with an empty requested list the session carries the full item tag
set; FilterMatchingTags is idempotent; and the concrete example — item
tags [c8y, prod], requested [C8Y] — yields exactly [c8y]. -/
theorem tag_filtering (item : Item) (fields : ItemFields)
    (allURLs : List URLSource) (vaultName : Str) (requestedTags : List Str)
    (s : CumulocitySession)
    (hs : s ∈ MapToSessions item fields allURLs vaultName requestedTags) :
    (requestedTags ≠ [] →
      s.Tags = item.Tags.filter (fun t =>
        requestedTags.any (fun r => strEqFold t r)))
    ∧ (requestedTags = [] → s.Tags = item.Tags)
    ∧ (∀ tags req : List Str,
        FilterMatchingTags (FilterMatchingTags tags req) req
          = FilterMatchingTags tags req)
    ∧ FilterMatchingTags ["c8y".data, "prod".data] ["C8Y".data]
      = ["c8y".data] := by
  have htags := mem_mapToSessions_tags item fields allURLs vaultName
    requestedTags s hs
  refine ⟨?_, ?_, ?_, by decide⟩
  · intro hreq
    rw [htags, if_neg hreq]
    unfold FilterMatchingTags
    rw [if_neg hreq]
  · intro hreq
    rw [htags, if_pos hreq]
  · intro tags req
    unfold FilterMatchingTags
    by_cases hreq : req = []
    · simp [hreq]
    · rw [if_neg hreq, if_neg hreq]
      rw [List.filter_filter]
      congr 1
      funext t
      simp [Bool.and_self]

/-- Concrete item for the C4 witness. -/
def tagWitnessItem : Item :=
  { ID := "i1".data, Title := "T".data, Tags := ["c8y".data, "prod".data],
    Vault := ⟨"v".data, "V".data⟩ }

/-- C4 witness: the filtering facts applied at a concrete synthesized
session (item tags [c8y, prod], requested tags [C8Y]). -/
theorem tag_filtering_witness :
    getN (MapToSessions tagWitnessItem ⟨[], [], [], []⟩ [] ("V".data)
        ["C8Y".data]) 0
      ∈ MapToSessions tagWitnessItem ⟨[], [], [], []⟩ [] ("V".data)
        ["C8Y".data]
    ∧ (["C8Y".data] : List Str) ≠ []
    ∧ (getN (MapToSessions tagWitnessItem ⟨[], [], [], []⟩ [] ("V".data)
        ["C8Y".data]) 0).Tags
      = tagWitnessItem.Tags.filter (fun t =>
          (["C8Y".data] : List Str).any (fun r => strEqFold t r)) :=
  ⟨by decide, by decide,
    (tag_filtering tagWitnessItem ⟨[], [], [], []⟩ [] ("V".data)
      ["C8Y".data] _ (by decide)).1 (by decide)⟩

/-- The parenthesized token a session name carries when its URL's label is
shared: the derived hostname, with " - Primary" appended for the primary
URL. -/
def nameToken (u : URLSource) : Str :=
  extractHostname u.URL ++ (if u.Primary then " - Primary".data else [])

lemma getN_mem [Inhabited α] (l : List α) (i : Nat) (hi : i < l.length) :
    getN l i ∈ l := by
  rw [getN, List.getD_eq_getElem l default hi]
  exact List.getElem_mem hi

lemma buildSessionName_shared (item : Item) (u : URLSource) (i n : Nat)
    (counts : Str → Nat) (hn : n ≠ 1) (hc : counts u.Label > 1) :
    BuildSessionName item u i n counts
      = item.Title ++ " (".data ++ nameToken u ++ ")".data := by
  unfold BuildSessionName nameToken
  rw [if_neg hn, if_pos hc]
  cases hp : u.Primary with
  | false => simp [hp, List.append_assoc]
  | true => simp [hp, List.append_assoc]

/-- C7 amended.  For an item with more than one collected URL all sharing
one label, every synthesized session name is
{title} ({hostname}) — or {title} ({hostname} - Primary) for the primary
URL — where hostname is derived from that session's own URL; the shared
label itself does not appear in the parentheses, and two names in the
batch coincide exactly when those parenthesized tokens coincide (so names
are pairwise distinct when the derived tokens are, but sessions whose
URLs reduce to the same hostname with the same primary flag share one
name). -/
theorem fanout_naming_shared_label (item : Item) (fields : ItemFields)
    (allURLs : List URLSource) (vaultName : Str) (requestedTags : List Str)
    (lab : Str) (hT : 1 < allURLs.length)
    (hlab : ∀ u ∈ allURLs, u.Label = lab) :
    (MapToSessions item fields allURLs vaultName requestedTags).length
      = allURLs.length
    ∧ (∀ i, i < allURLs.length →
        (getN (MapToSessions item fields allURLs vaultName requestedTags)
          i).Name
          = item.Title ++ " (".data ++ nameToken (getN allURLs i)
            ++ ")".data)
    ∧ ∀ i j, i < allURLs.length → j < allURLs.length →
        ((getN (MapToSessions item fields allURLs vaultName requestedTags)
            i).Name
          = (getN (MapToSessions item fields allURLs vaultName
              requestedTags) j).Name
          ↔ nameToken (getN allURLs i) = nameToken (getN allURLs j)) := by
  have hne : allURLs ≠ [] := by
    intro hcon
    rw [hcon] at hT
    simp at hT
  have hcount : ∀ u ∈ allURLs, labelCountsOf allURLs u.Label > 1 := by
    intro u hu
    have hfull : (allURLs.countP (fun w => w.Label == u.Label))
        = allURLs.length := by
      apply List.countP_eq_length.mpr
      intro w hw
      have h1 := hlab w hw
      have h2 := hlab u hu
      simp [h1, h2]
    unfold labelCountsOf
    omega
  have hname : ∀ i, i < allURLs.length →
      (getN (MapToSessions item fields allURLs vaultName requestedTags)
        i).Name
        = item.Title ++ " (".data ++ nameToken (getN allURLs i)
          ++ ")".data := by
    intro i hi
    rw [getN_mapToSessions item fields allURLs vaultName requestedTags i hi]
    show BuildSessionName item (getN allURLs i) i allURLs.length
      (labelCountsOf allURLs) = _
    exact buildSessionName_shared item (getN allURLs i) i allURLs.length
      (labelCountsOf allURLs) (by omega)
      (hcount (getN allURLs i) (getN_mem allURLs i hi))
  refine ⟨length_mapToSessions item fields allURLs vaultName requestedTags
    hne, hname, ?_⟩
  intro i j hi hj
  rw [hname i hi, hname j hj]
  constructor
  · intro h
    have h1 := List.append_cancel_right h
    exact List.append_cancel_left h1
  · intro h
    rw [h]

/-- Two identical URLs sharing the label "env" (both non-primary). -/
def sharedLabelCexURLs : List URLSource :=
  [⟨"https://a.com".data, "env".data, false, "urls".data⟩,
   ⟨"https://a.com".data, "env".data, false, "urls".data⟩]

/-- The item of the C7 counterexample. -/
def sharedLabelCexItem : Item :=
  { ID := "id1".data, Title := "T".data, Tags := [],
    Vault := ⟨"v".data, "V".data⟩ }

/-- C7 counterexample: for an item with 2 collected URLs sharing the label
"env", the synthesized names are both "T (a)": the shared label does not
occur in any name (refuting "every name contains that label in
parentheses") and the two sessions of the batch carry an identical name
(refuting "no two sessions in the same batch have an identical name"). -/
theorem fanout_naming_counterexample :
    ((MapToSessions sharedLabelCexItem ⟨[], [], [], []⟩ sharedLabelCexURLs
        ("V".data) []).map CumulocitySession.Name)
      = ["T (a)".data, "T (a)".data]
    ∧ ¬ ("env".data <:+: ("T (a)".data : Str)) := by
  constructor
  · decide
  · decide

/-- Shared-label URLs with distinct hostnames for the C7 witness. -/
def sharedLabelWitnessURLs : List URLSource :=
  [⟨"https://a.com".data, "env".data, false, "urls".data⟩,
   ⟨"https://b.com".data, "env".data, true, "urls".data⟩]

/-- C7 witness: the amended naming statement applied at a concrete 2-URL
shared-label item, discharging both hypotheses. -/
theorem fanout_naming_shared_label_witness :
    1 < sharedLabelWitnessURLs.length
    ∧ (getN (MapToSessions sharedLabelCexItem ⟨[], [], [], []⟩
        sharedLabelWitnessURLs ("V".data) []) 0).Name
      = sharedLabelCexItem.Title ++ " (".data
        ++ nameToken (getN sharedLabelWitnessURLs 0) ++ ")".data :=
  ⟨by decide,
    (fanout_naming_shared_label sharedLabelCexItem ⟨[], [], [], []⟩
      sharedLabelWitnessURLs ("V".data) [] ("env".data) (by decide)
      (by decide)).2.1 0 (by decide)⟩

/-! ## The onepassword client's own session mapping
(pkg/onepassword/client.go: extractFields, extractHostname,
buildSessionName, buildSessionURI, createSession, mapToSessions) -/

/-- The unexported itemFields record of the client. -/
structure itemFields where
  username : Str
  password : Str
  totpSecret : Str
  tenant : Str
deriving DecidableEq, Inhabited

/-- Model of extractFields: one scan over the fields (id "username" /
"password" set those; type "OTP" sets the TOTP secret from the nested
details; the first field whose lower-cased label starts with "tenant"
sets tenant), then the tenant/username split on the first "/" of the
username, applied once. -/
def extractFields (opi : OPItem) : itemFields :=
  let fields := opi.Fields.foldl (fun fields field =>
    let fields :=
      if field.ID == "username".data then
        { fields with username := field.Value } else fields
    let fields :=
      if field.ID == "password".data then
        { fields with password := field.Value } else fields
    let fields :=
      if field.«Type» == "OTP".data then
        { fields with totpSecret := field.TOTPDetails.Secret } else fields
    if hasPfx ("tenant".data) (strToLower field.Label)
        ∧ fields.tenant = [] then
      { fields with tenant := field.Value }
    else fields) ⟨[], [], [], []⟩
  if containsChar '/' fields.username then
    match splitFirst '/' fields.username with
    | some (p0, p1) =>
      let fields :=
        if fields.tenant = [] then { fields with tenant := p0 } else fields
      { fields with username := p1 }
    | none => fields
  else fields

/-- Model of extractHostname (pkg/onepassword): like the core variant but
stripping only the https:// and http:// schemes. -/
def opExtractHostname (urlStr : Str) : Str :=
  let hostname := trimPfx ("https://".data) urlStr
  let hostname := trimPfx ("http://".data) hostname
  let hostname :=
    match splitFirst '/' hostname with
    | some (pre, _) => pre
    | none => hostname
  match splitChar '.' hostname with
  | [] => hostname
  | firstPart :: _ =>
    if firstPart.length > 20 then
      if containsChar '-' firstPart then
        match splitChar '-' firstPart with
        | s1 :: s2 :: _ => s1 ++ "-".data ++ s2
        | _ => firstPart.take 20 ++ "...".data
      else firstPart.take 20 ++ "...".data
    else firstPart

/-- Model of buildSessionName (pkg/onepassword). -/
def opBuildSessionName (item : OPItem) (urlSource : URLSource)
    (urlIndex totalURLs : Nat) (labelCounts : Str → Nat) : Str :=
  if totalURLs = 1 then item.Title
  else if labelCounts urlSource.Label > 1 then
    let hostname := opExtractHostname urlSource.URL
    if urlSource.Primary then
      item.Title ++ " (".data ++ hostname ++ " - Primary)".data
    else
      item.Title ++ " (".data ++ hostname ++ ")".data
  else if urlSource.Label ≠ [] ∧ urlSource.Label ≠ "website".data then
    item.Title ++ " (".data ++ urlSource.Label ++ ")".data
  else if urlSource.Primary then
    item.Title ++ " (Primary)".data
  else
    item.Title ++ " (URL ".data ++ natToStr (urlIndex + 1) ++ ")".data

/-- Model of buildSessionURI (pkg/onepassword): op://{vaultName}/{title},
with a per-URL fragment appended whenever the item has more than one
collected URL. -/
def opBuildSessionURI (vaultName itemTitle : Str) (urlSource : URLSource)
    (urlIndex totalURLs : Nat) (labelCounts : Str → Nat) : Str :=
  let baseURI := "op://".data ++ vaultName ++ "/".data ++ itemTitle
  if totalURLs = 1 then baseURI
  else
    let fragment :=
      if labelCounts urlSource.Label > 1 then
        let hostname := opExtractHostname urlSource.URL
        if urlSource.Primary then hostname ++ "-primary".data else hostname
      else if urlSource.Label ≠ [] ∧ urlSource.Label ≠ "website".data then
        urlSource.Label
      else if urlSource.Primary then "primary".data
      else "url".data ++ natToStr (urlIndex + 1)
    baseURI ++ "#".data ++ fragment

/-- Model of createSession (pkg/onepassword): carries all item tags. -/
def opCreateSession (item : OPItem) (fields : itemFields) (vaultName : Str)
    (urlSource : URLSource) (sessionName sessionURI : Str) :
    CumulocitySession :=
  { SessionURI := sessionURI
    Name := sessionName
    ItemID := item.ID
    ItemName := item.Title
    Username := fields.username
    Password := fields.password
    Tenant := fields.tenant
    Host := urlSource.URL
    VaultID := item.Vault.ID
    VaultName := vaultName
    TOTPSecret := fields.totpSecret
    Tags := item.Tags }

/-- Model of mapToSessions (pkg/onepassword): resolve the vault display
name through the id-to-name map (an association list models the Go map),
extract fields, collect URLs, then one session per URL with
buildSessionName / buildSessionURI. -/
def opMapToSessions (item : OPItem) (vaults : List (Str × Str)) :
    List CumulocitySession :=
  let vaultName :=
    match vaults.find? (fun p => p.1 == item.Vault.ID) with
    | some p => p.2
    | none => item.Vault.Name
  let fields := extractFields item
  let allURLs := collectURLs item
  if allURLs.isEmpty then
    let emptyURL : URLSource :=
      { URL := [], Label := [], Primary := false, Source := "none".data }
    let sessionName := opBuildSessionName item emptyURL 0 1 (labelCountsOf [])
    let sessionURI :=
      opBuildSessionURI vaultName item.Title emptyURL 0 1 (labelCountsOf [])
    [opCreateSession item fields vaultName emptyURL sessionName sessionURI]
  else
    let labelCounts := labelCountsOf allURLs
    (List.range allURLs.length).map (fun i =>
      let urlSource := getN allURLs i
      opCreateSession item fields vaultName urlSource
        (opBuildSessionName item urlSource i allURLs.length labelCounts)
        (opBuildSessionURI vaultName item.Title urlSource i allURLs.length
          labelCounts))

/-- The two-URL login item on which the locator-URI claim fails: one
primary "Production" URL and one "Staging" URL, vault id vault123 with
display name "Test Vault" (the shape of TestMapToSessions_MultipleURLs in
client_test.go). -/
def uriBugItem : OPItem :=
  { ID := "test123".data, Title := "Test Service".data,
    Category := "LOGIN".data,
    Vault := ⟨"vault123".data, "Test Vault".data⟩,
    Fields := [],
    URLs := [⟨"Production".data, true, "https://prod.example.com".data⟩,
             ⟨"Staging".data, false, "https://staging.example.com".data⟩],
    Tags := [] }

/-- C2.  Evaluating the client's session mapping at a two-URL item: the
fan-out sessions do NOT share one locator URI — buildSessionURI appends a
per-URL fragment (and builds the URI from the vault display name and item
title, not the identifiers), so the two sessions carry distinct URIs, the
identifier-based op://vault123/test123 appears in neither (the substring
assertion of TestMapToSessions_MultipleURLs fails), while the core
synthesizer's BuildSessionURI on the same identifiers yields the stable
URI the claim, the spec and the tests describe. -/
theorem session_uri_fragment_bug :
    (opMapToSessions uriBugItem
        [("vault123".data, "Test Vault".data)]).map
      CumulocitySession.SessionURI
      = ["op://Test Vault/Test Service#Production".data,
         "op://Test Vault/Test Service#Staging".data]
    ∧ ("op://Test Vault/Test Service#Production".data : Str)
      ≠ "op://Test Vault/Test Service#Staging".data
    ∧ ¬ ("vault123/test123".data
        <:+: ("op://Test Vault/Test Service#Production".data : Str))
    ∧ BuildSessionURI ("vault123".data) ("test123".data)
      = "op://vault123/test123".data := by
  refine ⟨by decide, by decide, by decide, by decide⟩

/-! ## Vault listing (pkg/onepassword/client.go: parseVaultNamesFromString,
List) -/

/-- Model of parseVaultNamesFromString: split on commas, trim whitespace,
drop empty entries. -/
def parseVaultNamesFromString (vaultStr : Str) : List Str :=
  if vaultStr = [] then []
  else ((splitChar ',' vaultStr).map trimSpace).filter (fun v => v ≠ [])

/-- Model of Client.List.  The per-vault search (listFromVault, which
shells out to the op CLI) is the abstracted collaborator `fetch`; the
preflight check1Password failure is independent of any vault and outside
this claim.  With no vault names the single all-vault search's failure is
returned; with vault names, each vault is searched in order and a failure
is logged and skipped while the others still contribute. -/
def clientList
    (fetch : Str → Except Str (List CumulocitySession))
    (vaultStr : Str) : Except Str (List CumulocitySession) :=
  let vaultNames := parseVaultNamesFromString vaultStr
  if vaultNames = [] then
    match fetch [] with
    | .error e => .error e
    | .ok sessions => .ok sessions
  else
    .ok (vaultNames.foldl (fun allSessions vaultName =>
      match fetch vaultName with
      | .error _ => allSessions
      | .ok sessions => allSessions ++ sessions) [])

/-- C9 counterexample: exactly one vault ("Production") is requested and
fetching it fails, yet List returns an empty successful result — not the
error the claim requires. -/
theorem single_vault_failure_counterexample :
    clientList (fun _ => Except.error ("vault unreachable".data))
      ("Production".data) = Except.ok [] := rfl

lemma clientList_foldl_bind
    (fetch : Str → Except Str (List CumulocitySession)) :
    ∀ (ns : List Str) (acc : List CumulocitySession),
      ns.foldl (fun allSessions vaultName =>
          match fetch vaultName with
          | .error _ => allSessions
          | .ok sessions => allSessions ++ sessions) acc
        = acc ++ ns.bind (fun n =>
            match fetch n with
            | .ok sessions => sessions
            | .error _ => []) := by
  intro ns
  induction ns with
  | nil => intro acc; simp
  | cons n rest ih =>
    intro acc
    rw [List.foldl_cons]
    rw [show ((n :: rest).bind (fun n =>
        match fetch n with
        | .ok sessions => sessions
        | .error _ => []))
      = (match fetch n with
        | .ok sessions => sessions
        | .error _ => []) ++ rest.bind (fun n =>
          match fetch n with
          | .ok sessions => sessions
          | .error _ => []) from rfl]
    cases hf : fetch n with
    | error e => simp only [hf]; rw [ih acc]; simp
    | ok sessions => simp only [hf]; rw [ih (acc ++ sessions)]; simp

/-- C9 amended.  When one or more vault names are requested, a failure
fetching any of them — including the case of exactly one requested
vault — is skipped, and the call succeeds with the concatenated results
of the vaults that did succeed (possibly the empty list); a fetch failure
is fatal to the call only when no vault was requested and the single
all-vault search fails. -/
theorem vault_failure_skipping :
    (∀ (fetch : Str → Except Str (List CumulocitySession)) (vaultStr : Str),
      parseVaultNamesFromString vaultStr ≠ [] →
      clientList fetch vaultStr
        = Except.ok ((parseVaultNamesFromString vaultStr).bind (fun n =>
            match fetch n with
            | .ok sessions => sessions
            | .error _ => [])))
    ∧ ∀ (fetch : Str → Except Str (List CumulocitySession)) (vaultStr : Str),
        parseVaultNamesFromString vaultStr = [] →
        clientList fetch vaultStr = fetch [] := by
  constructor
  · intro fetch vaultStr hne
    unfold clientList
    rw [if_neg hne]
    rw [clientList_foldl_bind fetch (parseVaultNamesFromString vaultStr) []]
    rw [List.nil_append]
  · intro fetch vaultStr hnil
    unfold clientList
    rw [if_pos hnil]
    cases fetch [] <;> rfl

/-- The fetch function of the C9 witness: vault "A" succeeds with one
session, every other vault fails. -/
def witnessFetch : Str → Except Str (List CumulocitySession) :=
  fun n => if n = "A".data then Except.ok [{ Name := "s".data }]
    else Except.error ("x".data)

/-- C9 witness: the amended statement applied to the concrete vault string
"A,B" — vault A contributes its session, the failing vault B is skipped,
and the call succeeds. -/
theorem vault_failure_skipping_witness :
    parseVaultNamesFromString ("A,B".data) ≠ []
    ∧ clientList witnessFetch ("A,B".data)
      = Except.ok ((parseVaultNamesFromString ("A,B".data)).bind (fun n =>
          match witnessFetch n with
          | .ok sessions => sessions
          | .error _ => [])) :=
  ⟨by decide,
    vault_failure_skipping.1 witnessFetch ("A,B".data) (by decide)⟩

/-! ## Locator URI parsing (pkg/onepassword/client.go: ParseOPURI) -/

/-- Model of ParseOPURI: require the op:// scheme, trim it, split the
remainder at the FIRST "/" only (strings.SplitN with n = 2), and reject an
empty vault or item segment. -/
def ParseOPURI (uri : Str) : Except Str (Str × Str) :=
  if hasPfx ("op://".data) uri = false then
    .error ("invalid op:// URI format: ".data ++ uri)
  else
    let path := trimPfx ("op://".data) uri
    match splitFirst '/' path with
    | none =>
      .error ("invalid op:// URI format: expected op://vault/item, got ".data
        ++ uri)
    | some (vault, item) =>
      if vault = [] then
        .error ("invalid op:// URI format: vault cannot be empty, got ".data
          ++ uri)
      else if item = [] then
        .error ("invalid op:// URI format: item cannot be empty, got ".data
          ++ uri)
      else .ok (vault, item)

/-- Whether an Except value is an error. -/
def exceptIsError : Except Str (Str × Str) → Bool
  | .error _ => true
  | .ok _ => false

lemma hasPfx_append (p rest : Str) : hasPfx p (p ++ rest) = true := by
  induction p with
  | nil => simp [hasPfx, List.isPrefixOf]
  | cons c cs ih => simpa [hasPfx, List.isPrefixOf] using ih

lemma trimPfx_append (p rest : Str) : trimPfx p (p ++ rest) = rest := by
  rw [trimPfx, if_pos (hasPfx_append p rest), List.drop_left]

lemma splitFirst_append (V R : Str) (hv : '/' ∉ V) :
    splitFirst '/' (V ++ '/' :: R) = some (V, R) := by
  induction V with
  | nil => simp [splitFirst]
  | cons c cs ih =>
    have hc : c ≠ '/' := by intro h; exact hv (by simp [h])
    have hcs : '/' ∉ cs := fun h => hv (by simp [h])
    simp [splitFirst, hc, ih hcs]

lemma splitFirst_none (S : Str) (hs : '/' ∉ S) :
    splitFirst '/' S = none := by
  induction S with
  | nil => rfl
  | cons c cs ih =>
    have hc : c ≠ '/' := by intro h; exact hs (by simp [h])
    have hcs : '/' ∉ cs := fun h => hs (by simp [h])
    simp [splitFirst, hc, ih hcs]

/-- C10.  Locator-URI parsing splits only at the first "/" after the
op:// scheme: for non-empty V (containing no "/") and non-empty R,
op://V/R parses to vault V and item R even when R contains further "/" or
"#" characters — in particular op://v/a/b gives vault v, item a/b; and
parsing rejects exactly the strings missing the scheme, those with no "/"
after it, and those with an empty vault or item segment. -/
theorem op_uri_parsing :
    (∀ V R : Str, V ≠ [] → R ≠ [] → '/' ∉ V →
      ParseOPURI ("op://".data ++ V ++ '/' :: R) = .ok (V, R))
    ∧ (∀ uri : Str, hasPfx ("op://".data) uri = false →
        exceptIsError (ParseOPURI uri) = true)
    ∧ (∀ S : Str, '/' ∉ S →
        exceptIsError (ParseOPURI ("op://".data ++ S)) = true)
    ∧ (∀ R : Str,
        exceptIsError (ParseOPURI ("op://".data ++ '/' :: R)) = true)
    ∧ (∀ V : Str, '/' ∉ V →
        exceptIsError (ParseOPURI ("op://".data ++ V ++ ['/'])) = true)
    ∧ ParseOPURI ("op://v/a/b".data) = .ok ("v".data, "a/b".data) := by
  refine ⟨?_, ?_, ?_, ?_, ?_, rfl⟩
  · intro V R hV hR hv
    rw [ParseOPURI]
    rw [show ("op://".data ++ V ++ '/' :: R)
      = "op://".data ++ (V ++ '/' :: R) from by simp]
    rw [hasPfx_append, trimPfx_append]
    simp only [Bool.true_eq_false, if_false]
    rw [splitFirst_append V R hv]
    dsimp only
    rw [if_neg hV, if_neg hR]
  · intro uri h
    rw [ParseOPURI, h]
    rfl
  · intro S hs
    rw [ParseOPURI, hasPfx_append, trimPfx_append]
    simp only [Bool.true_eq_false, if_false]
    rw [splitFirst_none S hs]
    rfl
  · intro R
    rw [ParseOPURI, hasPfx_append, trimPfx_append]
    simp only [Bool.true_eq_false, if_false]
    rw [show splitFirst '/' ('/' :: R) = some ([], R) from by simp [splitFirst]]
    rfl
  · intro V hv
    rw [ParseOPURI]
    rw [show ("op://".data ++ V ++ ['/'])
      = "op://".data ++ (V ++ '/' :: []) from by simp]
    rw [hasPfx_append, trimPfx_append]
    simp only [Bool.true_eq_false, if_false]
    rw [splitFirst_append V [] hv]
    dsimp only
    by_cases hV0 : V = []
    · rw [if_pos hV0]; rfl
    · rw [if_neg hV0]; rfl

/-- C10 witness: the positive parse applied at op://Employee/Production,
discharging the non-emptiness and slash-freeness hypotheses. -/
theorem op_uri_parsing_witness :
    ("Employee".data : Str) ≠ []
    ∧ ("Production".data : Str) ≠ []
    ∧ '/' ∉ ("Employee".data : Str)
    ∧ ParseOPURI ("op://".data ++ "Employee".data ++ '/' :: "Production".data)
      = .ok ("Employee".data, "Production".data) :=
  ⟨by decide, by decide, by decide,
    op_uri_parsing.1 ("Employee".data) ("Production".data) (by decide)
      (by decide) (by decide)⟩

end C8y
